import Mathlib

/-!
Verification of the jsonrpc2 library (Go) against its natural-language
specification.

The repository has two revisions of its main source file and of its
parameter decoder; the claims reference the later revision of each
(the one containing RawID.IsValid with the empty-notification case,
jsonMessage.Check, and the ParamsDecoder with the canonical-empty-struct
empty-params rule), which is the revision embedded here.

Modelling conventions:
- Go strings and byte slices are modelled as List Nat (byte values) where
  byte-level behaviour matters (RawID, Params raw bytes), and as Lean
  String where the Go code only stores and compares whole strings
  (method names, error messages, object keys).
- The external encoding/json library is modelled at the JSON-value level:
  a Json inductive stands for a parsed JSON document, and the raw bytes
  of a captured sub-document (json.RawMessage, RawID, Params) are its
  canonical serialization (HTML escaping of the Go encoder is not
  modelled; it does not affect any property proved here).
- Go struct-field decoding semantics that the repository relies on are
  modelled faithfully: absent keys leave fields at their zero value (in
  particular an absent jsonrpc key never reaches V2.UnmarshalText),
  a key that belongs to an embedded pointer struct allocates that struct
  before the value is examined (so a null result/error value still
  allocates the Response), null into a pointer field stores nil, null
  into a string or int field is a no-op, null into a json.RawMessage or
  into a TextUnmarshaler reaches the unmarshaler (RawMessage stores the
  four bytes of null; a TextUnmarshaler reports a type error), key
  matching is exact with an ASCII case-insensitive fallback, duplicate
  keys are processed in order (last write wins), and int64 fields follow
  strconv.ParseInt base-10 semantics with the signed 64-bit range check.
-/

namespace Jsonrpc2

/-! ## JSON values (model of the external encoding/json document model) -/

/-- A parsed JSON value. Numbers keep their literal bytes (encoding/json
hands the raw literal to json.RawMessage / RawID and only parses it when
a numeric Go field asks for it). -/
inductive Json where
  | null
  | bool (b : Bool)
  | num (lit : List Nat)
  | str (s : String)
  | arr (elems : List Json)
  | obj (members : List (String × Json))

/-- Whether a value serializes with a leading left bracket or left brace
(the shape check Params.UnmarshalJSON performs on the first byte). -/
def Json.isContainer : Json → Bool
  | .arr _ => true
  | .obj _ => true
  | _ => false

/-- Whether the value is the JSON literal null. -/
def Json.isNull : Json → Bool
  | .null => true
  | _ => false

/-- UTF-8 bytes of one character. -/
def charUtf8 (c : Char) : List Nat :=
  let n := c.toNat
  if n < 0x80 then [n]
  else if n < 0x800 then [0xC0 + n / 0x40, 0x80 + n % 0x40]
  else if n < 0x10000 then
    [0xE0 + n / 0x1000, 0x80 + (n / 0x40) % 0x40, 0x80 + n % 0x40]
  else
    [0xF0 + n / 0x40000, 0x80 + (n / 0x1000) % 0x40,
     0x80 + (n / 0x40) % 0x40, 0x80 + n % 0x40]

/-- UTF-8 bytes of a string (a Go string value). -/
def strBytes (s : String) : List Nat :=
  s.data.foldr (fun c acc => charUtf8 c ++ acc) []

/-- JSON string-content escaping, per byte: quote and backslash get a
backslash escape, control bytes get a u-escape, everything else passes
through. -/
def escapeByte (b : Nat) : List Nat :=
  if b = 34 then [92, 34]
  else if b = 92 then [92, 92]
  else if b < 32 then
    [92, 117, 48, 48, 48 + b / 16, if b % 16 < 10 then 48 + b % 16 else 87 + b % 16]
  else [b]

/-- JSON string-content escaping of a byte sequence. -/
def escapeBytes (bs : List Nat) : List Nat :=
  bs.foldr (fun b acc => escapeByte b ++ acc) []

mutual

/-- Canonical (compact) serialization of a JSON value; stands for the raw
bytes encoding/json reports for a captured sub-document. -/
def serialize : Json → List Nat
  | .null => [110, 117, 108, 108]
  | .bool true => [116, 114, 117, 101]
  | .bool false => [102, 97, 108, 115, 101]
  | .num lit => lit
  | .str s => [34] ++ escapeBytes (strBytes s) ++ [34]
  | .arr xs => [91] ++ serializeSeq xs ++ [93]
  | .obj ms => [123] ++ serializeMembers ms ++ [125]

/-- Comma-separated serialization of array elements. -/
def serializeSeq : List Json → List Nat
  | [] => []
  | [x] => serialize x
  | x :: y :: xs => serialize x ++ [44] ++ serializeSeq (y :: xs)

/-- Comma-separated serialization of object members. -/
def serializeMembers : List (String × Json) → List Nat
  | [] => []
  | [kv] => [34] ++ escapeBytes (strBytes kv.1) ++ [34, 58] ++ serialize kv.2
  | kv :: kv2 :: xs =>
    [34] ++ escapeBytes (strBytes kv.1) ++ [34, 58] ++ serialize kv.2 ++ [44]
      ++ serializeMembers (kv2 :: xs)

end

/-! ## RawID (byte-level, from RawID.IsValid of the later revision) -/

/-- 32 hex encoded bytes, with 0x prefix, with quotes, is the maximum length. -/
def maxIDLength : Nat := 32 * 2 + 2 + 2

/-- The four bytes of the literal null. -/
def nullBytes : List Nat := [110, 117, 108, 108]

/-- ASCII decimal digit test on a byte. -/
def isDigitByte (b : Nat) : Bool := 48 ≤ b && b ≤ 57

/-- JSON insignificant whitespace bytes (space, tab, newline, carriage
return), as accepted by the encoding/json scanner between values. -/
def isSpaceByte (b : Nat) : Bool := b = 32 || b = 9 || b = 10 || b = 13

/-- Bytes allowed after a backslash as a one-character escape in a JSON
string, per the encoding/json scanner. -/
def isSimpleEscapeByte (b : Nat) : Bool :=
  b = 34 || b = 92 || b = 47 || b = 98 || b = 102 || b = 110 || b = 114 || b = 116

/-- ASCII hexadecimal digit test on a byte. -/
def isHexByte (b : Nat) : Bool :=
  (48 ≤ b && b ≤ 57) || (97 ≤ b && b ≤ 102) || (65 ≤ b && b ≤ 70)

/-- Model of the encoding/json scanner inside a string literal, after the
opening quote: consume up to and including the closing quote and return
the remaining bytes, or fail. Unescaped bytes must not be control bytes;
escapes are the eight one-character escapes or a u-escape with four hex
digits. -/
def scanStringBody : List Nat → Option (List Nat)
  | [] => none
  | b :: rest =>
    if b = 34 then some rest
    else if b = 92 then
      match rest with
      | [] => none
      | e :: rest2 =>
        if isSimpleEscapeByte e then scanStringBody rest2
        else if e = 117 then
          match rest2 with
          | h1 :: h2 :: h3 :: h4 :: rest3 =>
            if isHexByte h1 && isHexByte h2 && isHexByte h3 && isHexByte h4 then
              scanStringBody rest3
            else none
          | _ => none
        else none
    else if b < 32 then none
    else scanStringBody rest

/-- Model of json.Valid for an input whose first byte is a quote: one
complete string literal, followed only by insignificant whitespace. -/
def goJsonValidString (bs : List Nat) : Bool :=
  match bs with
  | [] => false
  | b :: rest =>
    decide (b = 34) &&
      (match scanStringBody rest with
       | some tail => tail.all isSpaceByte
       | none => false)

/-- RawID.IsValid of the later revision, byte for byte: the empty
encoding (a notification) is valid; otherwise the length is bounded by
maxIDLength, and the encoding must be the literal null, a quoted JSON
string, or decimal digits only. The digit loop ranges over runes in Go,
which agrees with the byte-wise check because ASCII digits are one-byte
runes and any non-ASCII byte makes both checks fail. -/
def RawID.IsValid (id : List Nat) : Bool :=
  if id.length = 0 then true
  else if id.length > maxIDLength then false
  else if id = nullBytes then true
  else if id.head? = some 34 then
    (id.getLast? = some 34) && goJsonValidString id
  else id.all isDigitByte

/-- RawID.IsNotification: the empty encoding. -/
def RawID.IsNotification (id : List Nat) : Bool := id.length = 0

/-! ## Params (byte-level, from Params.UnmarshalJSON of the later revision) -/

/-- Params.UnmarshalJSON: reject empty input, require the first byte to
be a left bracket or a left brace, and otherwise store the bytes
verbatim. -/
def Params.UnmarshalJSON (data : List Nat) : Except String (List Nat) :=
  if data.length = 0 then .error "invalid JSON, empty input"
  else if data.head? ≠ some 91 ∧ data.head? ≠ some 123 then
    .error "JSON-RPC params must be list or map"
  else .ok data

/-! ## ErrorConst (from the error catalog source file) -/

/-- ErrorConst.IsServerError, byte for byte from the source: strictly
below -32000 and strictly above -32099. -/
def ErrorConst.IsServerError (c : Int) : Bool :=
  c < -32000 && c > -32099

/-- ErrorConst.Code is the identity on the stored integer. -/
def ErrorConst.Code (c : Int) : Int := c

/-- ErrorConst.Message: the catalog switch, with the fmt.Sprintf fallback
for non-standard codes. -/
def ErrorConst.Message (c : Int) : String :=
  if c = -32700 then "Parse error"
  else if c = -32600 then "Invalid Request"
  else if c = -32601 then "Method not found"
  else if c = -32602 then "Invalid params"
  else if c = -32603 then "Internal error"
  else if c = -32000 then "Invalid input"
  else if c = -32001 then "Resource not found"
  else if c = -32002 then "Resource unavailable"
  else if c = -32003 then "Transaction rejected"
  else if c = -32004 then "Method not supported"
  else if c = -32005 then "Limit exceeded"
  else if c = -32006 then "JSON-RPC version not supported"
  else if c = 4001 then "User Rejected Request"
  else if c = 4100 then "Unauthorized"
  else if c = 4200 then "Unsupported Method"
  else if c = 4900 then "Disconnected"
  else if c = 4901 then "Chain Disconnected"
  else "Non-standard error-code " ++ toString c

/-- The InternalError code constant. -/
def InternalError : Int := -32603

/-! ## Message data model (later revision) -/

/-- Request: a method name and optional raw params (a captured JSON
array or object value). -/
structure Request where
  method : String
  params : Option Json

/-- ErrorObject: code, message, optional raw data. The data field is a
json.RawMessage: an absent key leaves it nil (none); an explicit null is
captured as the value null (RawMessage receives the literal bytes). -/
structure ErrorObject where
  code : Int
  message : String
  data : Option Json

/-- Response: optional raw result (a nil or non-nil pointer to captured
bytes) and optional error object. -/
structure Response where
  result : Option Json
  error : Option ErrorObject

/-- Message: optional embedded Request, optional embedded Response, and
the id. A none id is the zero-length RawID (a notification); a some id
is the captured id value, whose raw bytes are its serialization. -/
structure Message where
  request : Option Request
  response : Option Response
  id : Option Json

/-- The zero Message (all embedded pointers nil, empty id). -/
def emptyMessage : Message := { request := none, response := none, id := none }

/-- The zero ErrorObject, as allocated when the error key is first seen. -/
def zeroErrorObject : ErrorObject := { code := 0, message := "", data := none }

/-! ## Base-10 int64 literals (model of strconv.ParseInt as used by
encoding/json for int64 fields) -/

/-- Decimal digit bytes of a natural number, most significant first. -/
def natDigitsBytes (n : Nat) : List Nat :=
  if h : n < 10 then [48 + n]
  else natDigitsBytes (n / 10) ++ [48 + n % 10]
  decreasing_by exact Nat.div_lt_self (by omega) (by omega)

/-- Decimal literal bytes of an integer, with a leading minus for
negative values (the form the Go encoder emits for an int64 field). -/
def intLitBytes (c : Int) : List Nat :=
  if c < 0 then 45 :: natDigitsBytes c.natAbs else natDigitsBytes c.toNat

/-- Parse a non-empty all-digit byte sequence as a natural number. -/
def parseNatDigits (bs : List Nat) : Option Nat :=
  if bs ≠ [] ∧ bs.all isDigitByte then
    some (bs.foldl (fun a b => a * 10 + (b - 48)) 0)
  else none

/-- strconv.ParseInt base 10, bit size 64: optional sign, decimal
digits, signed 64-bit range check. Anything else (exponents, fractions,
empty input) is an error, which encoding/json surfaces as a decode
error for an int64 field. -/
def parseInt64 (bs : List Nat) : Option Int :=
  match bs with
  | [] => none
  | b :: rest =>
    if b = 45 then
      (parseNatDigits rest).bind fun n =>
        if n ≤ 2 ^ 63 then some (-(n : Int)) else none
    else if b = 43 then
      (parseNatDigits rest).bind fun n =>
        if n ≤ 2 ^ 63 - 1 then some (n : Int) else none
    else
      (parseNatDigits (b :: rest)).bind fun n =>
        if n ≤ 2 ^ 63 - 1 then some (n : Int) else none

/-! ## Decoding (Message.UnmarshalJSON via jsonMessage) -/

/-- ASCII lower-casing of a key, modelling the case-insensitive fallback
of encoding/json field matching (Go folds Unicode as well; all field
names here are ASCII). -/
def lowerKey (s : String) : String := String.mk (s.data.map Char.toLower)

/-- Whether an object key selects the struct field with the given
(lower-case) name: exact match, or ASCII case-insensitive match. -/
def matchKey (k target : String) : Bool := k == target || lowerKey k == target

/-- The jsonMessage field a key selects, if any. -/
inductive KeyT where
  | kmethod | kparams | kresult | kerror | kid | kjsonrpc | kother
deriving DecidableEq

/-- Resolve an object key against the jsonMessage fields (method and
params promoted from the embedded Request, result and error promoted
from the embedded Response, plus id and jsonrpc). -/
def keyFor (k : String) : KeyT :=
  if matchKey k "method" then .kmethod
  else if matchKey k "params" then .kparams
  else if matchKey k "result" then .kresult
  else if matchKey k "error" then .kerror
  else if matchKey k "id" then .kid
  else if matchKey k "jsonrpc" then .kjsonrpc
  else .kother

/-- The allocated Request the decoder writes through (the existing one,
or a fresh zero allocation). -/
def reqState (st : Message) : Request :=
  st.request.getD { method := "", params := none }

/-- The allocated Response the decoder writes through. -/
def respState (st : Message) : Response :=
  st.response.getD { result := none, error := none }

/-- Decode a value into the int64 code field: ParseInt semantics for a
number literal, null is a no-op, anything else a type error. -/
def decodeCodeMember (eo : ErrorObject) (v : Json) : Except String ErrorObject :=
  match v with
  | .null => .ok eo
  | .num lit =>
    match parseInt64 lit with
    | some c => .ok { eo with code := c }
    | none => .error "cannot unmarshal number into int64 field"
  | .bool _ => .error "cannot unmarshal value into int64 field"
  | .str _ => .error "cannot unmarshal value into int64 field"
  | .arr _ => .error "cannot unmarshal value into int64 field"
  | .obj _ => .error "cannot unmarshal value into int64 field"

/-- Decode a value into the message string field: null is a no-op,
anything but a string a type error. -/
def decodeMsgTextMember (eo : ErrorObject) (v : Json) : Except String ErrorObject :=
  match v with
  | .null => .ok eo
  | .str s => .ok { eo with message := s }
  | .bool _ => .error "cannot unmarshal value into string field"
  | .num _ => .error "cannot unmarshal value into string field"
  | .arr _ => .error "cannot unmarshal value into string field"
  | .obj _ => .error "cannot unmarshal value into string field"

/-- Decode one member of the error object: code is an int64 field,
message a string field, data a json.RawMessage capturing any value
(null included). Unknown keys are ignored. -/
def stepErrorMember (eo : ErrorObject) (k : String) (v : Json) :
    Except String ErrorObject :=
  if matchKey k "code" then decodeCodeMember eo v
  else if matchKey k "message" then decodeMsgTextMember eo v
  else if matchKey k "data" then .ok { eo with data := some v }
  else .ok eo

/-- Decode the members of an error object in order into an existing
allocation (a repeated error key keeps earlier fields). -/
def decodeErrorMembers (eo : ErrorObject) :
    List (String × Json) → Except String ErrorObject
  | [] => .ok eo
  | (k, v) :: rest =>
    match stepErrorMember eo k v with
    | .ok eo2 => decodeErrorMembers eo2 rest
    | .error e => .error e

/-- The method key: a string value sets the method, null allocates the
Request and leaves the zero method, anything else is a type error. -/
def decodeMethodMember (st : Message) (v : Json) : Except String Message :=
  match v with
  | .null => .ok { st with request := some (reqState st) }
  | .str s => .ok { st with request := some { reqState st with method := s } }
  | .bool _ => .error "cannot unmarshal value into string field"
  | .num _ => .error "cannot unmarshal value into string field"
  | .arr _ => .error "cannot unmarshal value into string field"
  | .obj _ => .error "cannot unmarshal value into string field"

/-- The params key: Params.UnmarshalJSON accepts exactly array and
object values (their serialization starts with the required byte). -/
def decodeParamsMember (st : Message) (v : Json) : Except String Message :=
  if v.isContainer then
    .ok { st with request := some { reqState st with params := some v } }
  else .error "JSON-RPC params must be list or map"

/-- The result key: a pointer to a json.RawMessage — null stores nil,
anything else captures the raw value. Either way the Response has been
allocated by the field walk. -/
def decodeResultMember (st : Message) (v : Json) : Except String Message :=
  if v.isNull then .ok { st with response := some { respState st with result := none } }
  else .ok { st with response := some { respState st with result := some v } }

/-- The error key: null stores a nil ErrorObject pointer, an object
decodes into the (possibly pre-existing) allocation, and anything else is
a type error — with the Response allocated in every case that sets the
field. -/
def decodeErrorMember (st : Message) (v : Json) : Except String Message :=
  match v with
  | .null => .ok { st with response := some { respState st with error := none } }
  | .obj ems =>
    match decodeErrorMembers ((respState st).error.getD zeroErrorObject) ems with
    | .ok eo => .ok { st with response := some { respState st with error := some eo } }
    | .error e => .error e
  | .bool _ => .error "cannot unmarshal value into error object"
  | .num _ => .error "cannot unmarshal value into error object"
  | .str _ => .error "cannot unmarshal value into error object"
  | .arr _ => .error "cannot unmarshal value into error object"

/-- The id key: RawID.UnmarshalJSON stores the raw bytes and validates
them. -/
def decodeIdMember (st : Message) (v : Json) : Except String Message :=
  if RawID.IsValid (serialize v) then .ok { st with id := some v }
  else .error "invalid ID"

/-- The jsonrpc key: V2.UnmarshalText on the string content; any
non-string value (null included) is a type error. -/
def decodeVersionMember (st : Message) (v : Json) : Except String Message :=
  match v with
  | .str s => if s == "2.0" then .ok st else .error "invalid JSON RPC version"
  | .null => .error "cannot unmarshal value into version marker"
  | .bool _ => .error "cannot unmarshal value into version marker"
  | .num _ => .error "cannot unmarshal value into version marker"
  | .arr _ => .error "cannot unmarshal value into version marker"
  | .obj _ => .error "cannot unmarshal value into version marker"

/-- Decode one member of the envelope object. Touching a promoted field
allocates its embedded struct before the value is examined, exactly as
the encoding/json field-index walk does; so a null method still
allocates the Request and a null result still allocates the Response. -/
def stepMember (st : Message) (k : String) (v : Json) : Except String Message :=
  match keyFor k with
  | .kmethod => decodeMethodMember st v
  | .kparams => decodeParamsMember st v
  | .kresult => decodeResultMember st v
  | .kerror => decodeErrorMember st v
  | .kid => decodeIdMember st v
  | .kjsonrpc => decodeVersionMember st v
  | .kother => .ok st

/-- Decode the envelope members in order. encoding/json records the
first error but keeps scanning; since Message.UnmarshalJSON discards
the value whenever any error is reported, stopping at the first error
yields the same accept/reject behaviour and the same accepted value. -/
def decodeMembers (st : Message) : List (String × Json) → Except String Message
  | [] => .ok st
  | (k, v) :: rest =>
    match stepMember st k v with
    | .ok st2 => decodeMembers st2 rest
    | .error e => .error e

/-- jsonMessage.Check: a response must not be paired with a request nor
with a notification id; otherwise a request must be present. -/
def checkMessage (m : Message) : Option String :=
  match m.response with
  | some _ =>
    if m.request.isSome then
      some "message must be either a request or response, but not both"
    else if m.id.isNone then some "responses cannot be notifications"
    else none
  | none =>
    if m.request.isNone then some "message must be either a request or response"
    else none

/-- Message.UnmarshalJSON: unmarshal into the jsonMessage (a top-level
null is a no-op on the zero value, any other non-object is a type
error), then run Check, then copy the fields over. -/
def decodeMessage (j : Json) : Except String Message :=
  match j with
  | .obj ms =>
    match decodeMembers emptyMessage ms with
    | .error e => .error e
    | .ok m =>
      match checkMessage m with
      | some e => .error e
      | none => .ok m
  | .null =>
    match checkMessage emptyMessage with
    | some e => .error e
    | none => .ok emptyMessage
  | _ => .error "cannot unmarshal value into message envelope"

/-! ## Encoding (Message.MarshalJSON via jsonMessage) -/

/-- Marshal an ErrorObject: code and message always, data only when the
RawMessage is non-empty (omitempty). -/
def errMembers (eo : ErrorObject) : List (String × Json) :=
  [("code", Json.num (intLitBytes eo.code)), ("message", Json.str eo.message)]
    ++ (match eo.data with
        | none => []
        | some d => [("data", d)])

/-- Marshal an ErrorObject as the object of its member list. -/
def encodeErrorObject (eo : ErrorObject) : Json :=
  .obj (errMembers eo)

/-- The member list json.Marshal produces for the jsonMessage, in struct
declaration order (method, params, result, error, id, jsonrpc), with
omitempty dropping an empty params, a nil result pointer, a nil error
pointer and an empty id. RawID.MarshalJSON validates a non-empty id and
makes the whole marshal fail when it is invalid. At the value level a
captured params/result/data value always re-serializes, so the id check
is the only marshal failure the jsonMessage can produce. -/
def marshalFields (m : Message) : Except String (List (String × Json)) :=
  let reqFields :=
    match m.request with
    | none => []
    | some r =>
      ("method", Json.str r.method)
        :: (match r.params with
            | none => []
            | some p => [("params", p)])
  let respFields :=
    match m.response with
    | none => []
    | some rp =>
      (match rp.result with
       | none => []
       | some v => [("result", v)])
        ++ (match rp.error with
            | none => []
            | some eo => [("error", encodeErrorObject eo)])
  match m.id with
  | none => .ok (reqFields ++ respFields ++ [("jsonrpc", Json.str "2.0")])
  | some v =>
    if RawID.IsValid (serialize v) then
      .ok (reqFields ++ respFields ++ [("id", v)] ++ [("jsonrpc", Json.str "2.0")])
    else .error "invalid ID"

/-- Message.MarshalJSON: serialize first, then run Check on the source
value, returning the serialized document together with the Check error.
The first component is the serialized output (none when json.Marshal
itself failed), the second the returned error. -/
def Message.MarshalJSON (m : Message) : Option Json × Option String :=
  match marshalFields m with
  | .error e => (none, some e)
  | .ok fs => (some (.obj fs), checkMessage m)

/-! ## Responding (later revision: RespondSuccess, Respond, Message.Respond) -/

/-- AnnotatedErrorObj: catalog message, a colon and a space, then the
cause text. -/
def AnnotatedErrorObj (c : Int) (errText : String) : ErrorObject :=
  { code := ErrorConst.Code c
    message := ErrorConst.Message c ++ ": " ++ errText
    data := none }

/-- Package-level RespondSuccess. The serialization of the caller
payload is external (json.Marshal on an arbitrary Go value), so the
model takes its outcome as the argument: a captured result value on
success, or the error text. -/
def RespondSuccess (enc : Except String Json) : Except String Response :=
  match enc with
  | .error e => .error ("failed to encode response: " ++ e)
  | .ok x => .ok { result := some x, error := none }

/-- Package-level Respond: a RespondSuccess failure becomes an
InternalError-coded error object annotated with the failure text. -/
def Respond (enc : Except String Json) : Response :=
  match RespondSuccess enc with
  | .error e => { result := none, error := some (AnnotatedErrorObj InternalError e) }
  | .ok r => r

/-- Message.Respond of the later revision: panics (modelled as none)
when the receiver is already a response, otherwise wraps the Respond
response with the receiver id. -/
def Message.Respond (m : Message) (enc : Except String Json) : Option Message :=
  if m.response.isSome then none
  else some { request := none, response := some (Jsonrpc2.Respond enc), id := m.id }

/-! ## ParamsDecoder (later revision, generic over the destination) -/

/-- The reflect.Kind classification the decoder switches on, after
unwrapping one pointer layer. -/
inductive GoKind where
  | slice | strukt | other
deriving DecidableEq

/-- The errors the decoder can produce, separated by origin. -/
inductive PErr where
  | emptyParams
  | namedIntoList
  | invalidParams
  | external (msg : String)
  | countMismatch (expected got : Nat)
  | fieldErrs (errs : List (Nat × String))
deriving DecidableEq

/-- A destination shape E, as the reflection in the source observes it:
its kind, whether the original type is literally the canonical empty
struct, its zero value, and the external decode operations delegated to
encoding/json. For a struct kind, the declared fields in declaration
order are the list of their zero values plus a per-field decoder (the
json.Unmarshal of an element into the address of field i), and the
value is reassembled from the field list. -/
structure GoShape (β γ : Type) where
  kind : GoKind
  isCanonicalEmptyStruct : Bool
  zero : β
  fieldZeros : List γ
  fieldDec : Nat → Json → Except String γ
  fromFields : List γ → β
  decNamed : List (String × Json) → Except String β
  decSlice : List Json → Except String β
  decOther : Json → Except String β

/-- The positional loop over (field zero, element) pairs: every element
is attempted against its field in order; a failure keeps the field at
its zero value and records the joined error entry. -/
def fieldsLoop (fdec : Nat → Json → Except String γ) :
    List γ → List Json → Nat → List γ × List (Nat × String)
  | zs, [], _ => (zs, [])
  | [], _ :: _, _ => ([], [])
  | z :: zs, it :: its, i =>
    let r := fieldsLoop fdec zs its (i + 1)
    match fdec i it with
    | .ok a => (a :: r.1, r.2)
    | .error e => (z :: r.1, (i, e) :: r.2)

/-- ParamsDecoder of the later revision, at the value level. The input
is the params after left-trimming whitespace: none for empty bytes,
some j for a parsed value whose first byte dispatches on its
constructor (arrays to the left-bracket arm, objects to the left-brace
arm, anything else to the default arm). Empty input decodes to the zero
value only for the canonical empty struct; a struct from an array
requires the exact declared field count (early return on mismatch) and
otherwise attempts every field, joining the failures. -/
def ParamsDecoder (S : GoShape β γ) (p : Option Json) : Except PErr β :=
  match p with
  | none =>
    if S.isCanonicalEmptyStruct then .ok S.zero else .error .emptyParams
  | some j =>
    match S.kind with
    | .slice =>
      match j with
      | .obj _ => .error .namedIntoList
      | .arr items =>
        match S.decSlice items with
        | .ok d => .ok d
        | .error e => .error (.external e)
      | _ => .error .invalidParams
    | .strukt =>
      match j with
      | .obj ms =>
        match S.decNamed ms with
        | .ok d => .ok d
        | .error e => .error (.external e)
      | .arr items =>
        if S.fieldZeros.length ≠ items.length then
          .error (.countMismatch S.fieldZeros.length items.length)
        else
          let r := fieldsLoop S.fieldDec S.fieldZeros items 0
          if r.2.isEmpty then .ok (S.fromFields r.1)
          else .error (.fieldErrs r.2)
      | _ => .error .invalidParams
    | .other =>
      match S.decOther j with
      | .ok d => .ok d
      | .error e => .error (.external e)

/-! ## Specification views of the positional loop -/

/-- The per-field failures the positional loop reports: every element is
attempted against its field, in index order, independent of the other
fields. -/
def fieldFailures (fdec : Nat → Json → Except String γ) :
    List Json → Nat → List (Nat × String)
  | [], _ => []
  | it :: its, i =>
    match fdec i it with
    | .ok _ => fieldFailures fdec its (i + 1)
    | .error e => (i, e) :: fieldFailures fdec its (i + 1)

/-- The fields the positional loop produces: element i bound into field
i when its decode succeeds, the declared zero value otherwise. -/
def boundFields (fdec : Nat → Json → Except String γ) :
    List γ → List Json → Nat → List γ
  | zs, [], _ => zs
  | [], _ :: _, _ => []
  | z :: zs, it :: its, i =>
    (match fdec i it with
     | .ok a => a
     | .error _ => z) :: boundFields fdec zs its (i + 1)

/-- The canonical empty-struct destination (Go struct with no fields). -/
def emptyStructShape : GoShape Unit Unit where
  kind := .strukt
  isCanonicalEmptyStruct := true
  zero := ()
  fieldZeros := []
  fieldDec := fun _ _ => .ok ()
  fromFields := fun _ => ()
  decNamed := fun _ => .ok ()
  decSlice := fun _ => .ok ()
  decOther := fun _ => .ok ()

/-- Per-field decoding for a two-field record like the TestObj of the
tests: field 0 is a string field, field 1 an integer field. -/
def testFieldDec : Nat → Json → Except String Json
  | 0, .str s => .ok (.str s)
  | 1, .num lit =>
    if (parseInt64 lit).isSome then .ok (.num lit)
    else .error "cannot unmarshal number into int field"
  | _, _ => .error "cannot unmarshal value into field"

/-- A two-field record destination (string field then int field, in
declaration order), with the field vector itself as the destination
value. -/
def testObjShape : GoShape (List Json) Json where
  kind := .strukt
  isCanonicalEmptyStruct := false
  zero := [.str "", .num [48]]
  fieldZeros := [.str "", .num [48]]
  fieldDec := testFieldDec
  fromFields := id
  decNamed := fun _ => .error "named decode delegated to encoding/json"
  decSlice := fun _ => .error "slice decode delegated to encoding/json"
  decOther := fun _ => .error "direct decode delegated to encoding/json"

/-- Modelled from the claim wording: a walk over the interior of a
double-quoted string that rejects embedded control bytes and unescaped
quotes, where a backslash escapes whatever single byte follows it (the
wording imposes no constraint on which escapes are legal). A trailing
lone backslash would escape the closing quote, so it is rejected. -/
def noControlOrBareQuote : List Nat → Bool
  | [] => true
  | 92 :: [] => false
  | 92 :: _ :: rest => noControlOrBareQuote rest
  | 34 :: _ => false
  | b :: rest => decide (32 ≤ b) && noControlOrBareQuote rest

/-- Modelled from the claim wording of C4: accept exactly the
zero-length encoding, the literal null, unsigned decimal integer
literals, and double-quoted strings without embedded control bytes or
unescaped quotes, every non-empty accepted encoding at most 66 bytes. -/
def claimIdValid (id : List Nat) : Bool :=
  decide (id = []) || decide (id = nullBytes) ||
  (decide (id.length ≤ 66) && decide (id ≠ []) && id.all isDigitByte) ||
  (decide (id.length ≤ 66) && decide (2 ≤ id.length) &&
    decide (id.head? = some 34) && decide (id.getLast? = some 34) &&
    noControlOrBareQuote ((id.drop 1).dropLast))

/-- A complete JSON string literal: an opening quote whose scan consumes
exactly the rest of the input. -/
def isJsonStringLit (bs : List Nat) : Bool :=
  match bs with
  | [] => false
  | b :: rest => decide (b = 34) && decide (scanStringBody rest = some [])

/-- The amended id grammar: zero-length, the literal null, non-empty
all-digit encodings, or complete JSON string literals, the non-empty
forms bounded by maxIDLength (68 bytes). -/
def amendedIdValid (id : List Nat) : Bool :=
  decide (id = []) || decide (id = nullBytes) ||
  (decide (id.length ≤ maxIDLength) && decide (id ≠ []) && id.all isDigitByte) ||
  (decide (id.length ≤ maxIDLength) && isJsonStringLit id)

/-- A concrete request message with id 1, used to witness C6. -/
def c6SampleMessage : Message where
  request := some { method := "m", params := none }
  response := none
  id := some (.num [49])

/-- A Message constructed with both a Request and a Response. -/
def bothSetMessage : Message where
  request := some { method := "m", params := none }
  response := some { result := some (.num [49]), error := none }
  id := some (.num [49])

/-- A decoded bare request message, used to witness C2. -/
def c2SampleMessage : Message := ⟨some ⟨"x", none⟩, none, none⟩

/-- The wire object of a response carrying both result and error. -/
def c7BothInput : Json :=
  .obj [("jsonrpc", .str "2.0"), ("result", .num [49]),
    ("error", .obj [("code", .num [49]), ("message", .str "x")]), ("id", .num [49])]

/-- The message decode produces for c7BothInput: a Response with both
members present. -/
def c7BothMessage : Message :=
  ⟨none, some ⟨some (.num [49]), some ⟨1, "x", none⟩⟩, some (.num [49])⟩

/-- The code range of an error object produced by decoding. -/
def ErrWF (eo : ErrorObject) : Prop :=
  -(2 ^ 63) ≤ eo.code ∧ eo.code ≤ 2 ^ 63 - 1

/-- Shape facts that hold of every message state reachable by decoding:
captured params are containers, a present result is never the null
value (null stores a nil pointer instead), error codes fit in int64
(they came through ParseInt), and a present id is valid. -/
def MsgWF (m : Message) : Prop :=
  (∀ r p, m.request = some r → r.params = some p → p.isContainer = true) ∧
  (∀ rp v, m.response = some rp → rp.result = some v → v.isNull = false) ∧
  (∀ rp eo, m.response = some rp → rp.error = some eo → ErrWF eo) ∧
  (∀ v, m.id = some v → RawID.IsValid (serialize v) = true)

/-- The subtract request of the round-trip test suite, as a wire value. -/
def c1Input : Json :=
  .obj [("jsonrpc", .str "2.0"), ("method", .str "subtract"),
    ("params", .arr [.num [52, 50], .num [50, 51]]), ("id", .num [49])]

/-- The message c1Input decodes to. -/
def c1Msg : Message :=
  ⟨some ⟨"subtract", some (.arr [.num [52, 50], .num [50, 51]])⟩, none, some (.num [49])⟩

theorem fieldsLoop_eq_spec (fdec : Nat → Json → Except String γ) :
    ∀ (zs : List γ) (its : List Json) (i : Nat), its.length = zs.length →
      fieldsLoop fdec zs its i = (boundFields fdec zs its i, fieldFailures fdec its i)
  | zs, [], i, _ => by simp [fieldsLoop, boundFields, fieldFailures]
  | [], _ :: _, _, h => by simp at h
  | z :: zs, it :: its, i, h => by
    have ih := fieldsLoop_eq_spec fdec zs its (i + 1) (by simpa using h)
    simp only [fieldsLoop, boundFields, fieldFailures, ih]
    cases fdec i it <;> simp

theorem boundFields_get (fdec : Nat → Json → Except String γ) :
    ∀ (zs : List γ) (its : List Json) (i j : Nat) (it : Json) (a : γ),
      its.length = zs.length → its.get? j = some it → fdec (i + j) it = .ok a →
      (boundFields fdec zs its i).get? j = some a
  | _, [], _, j, _, _, _, hget, _ => by simp at hget
  | [], _ :: _, _, _, _, _, hlen, _, _ => by simp at hlen
  | z :: zs, it0 :: its, i, 0, it, a, _, hget, hdec => by
    simp only [List.get?] at hget
    cases hget
    simp only [boundFields, Nat.add_zero] at *
    simp [hdec]
  | z :: zs, it0 :: its, i, j + 1, it, a, hlen, hget, hdec => by
    have ih := boundFields_get fdec zs its (i + 1) j it a (by simpa using hlen)
      (by simpa using hget) (by rw [show i + 1 + j = i + (j + 1) by omega]; exact hdec)
    simpa [boundFields] using ih

/-! ## Concrete destination shapes for witnesses -/

/-! ## Claim theorems -/

/-- C9 counterexample: the band endpoints -32099 and -32000 lie in the
claimed reserved band -32099..-32000 (under the inclusive reading, and
each under one of the half-open readings), yet ErrorConst.IsServerError
rejects both, so the claimed if-and-only-if fails at a concrete code. -/
theorem c9_counterexample :
    (-32099 ≤ (-32099 : Int) ∧ (-32099 : Int) ≤ -32000
      ∧ ErrorConst.IsServerError (-32099) = false) ∧
    (-32099 ≤ (-32000 : Int) ∧ (-32000 : Int) ≤ -32000
      ∧ ErrorConst.IsServerError (-32000) = false) := by
  refine ⟨⟨by norm_num, by norm_num, ?_⟩, ⟨by norm_num, by norm_num, ?_⟩⟩ <;> decide

/-- C9 amended: IsServerError holds exactly on the open interval
-32099 < c < -32000 (both reserved-band endpoints excluded), and in
particular holds at -32050. -/
theorem c9_server_error_band :
    (∀ c : Int, ErrorConst.IsServerError c = true ↔ (-32099 < c ∧ c < -32000)) ∧
    ErrorConst.IsServerError (-32050) = true := by
  constructor
  · intro c
    simp only [ErrorConst.IsServerError, Bool.and_eq_true, decide_eq_true_eq]
    omega
  · decide

/-- C10: Params.UnmarshalJSON accepts exactly the non-empty inputs whose
first byte is a left bracket or a left brace, stores accepted bytes
verbatim, and in particular accepts the two-byte non-JSON input of a
left bracket followed by a quote. -/
theorem c10_params_shape_only :
    (∀ data : List Nat,
      ((Params.UnmarshalJSON data).isOk = true ↔
        data ≠ [] ∧ (data.head? = some 91 ∨ data.head? = some 123)) ∧
      (∀ stored, Params.UnmarshalJSON data = .ok stored → stored = data)) ∧
    Params.UnmarshalJSON [91, 34] = .ok [91, 34] := by
  refine ⟨fun data => ⟨?_, ?_⟩, rfl⟩
  · unfold Params.UnmarshalJSON
    split
    · simp_all [List.length_eq_zero, Except.isOk, Except.toBool]
    · split
      · rename_i hlen hhead
        simp only [Except.isOk, Except.toBool, Bool.false_eq_true, false_iff]
        intro hc
        rcases hc.2 with h91 | h123
        · exact hhead.1 h91
        · exact hhead.2 h123
      · rename_i hlen hhead
        simp only [Except.isOk, Except.toBool, true_iff]
        refine ⟨by simpa [List.length_eq_zero] using hlen, ?_⟩
        by_contra hc
        push_neg at hc
        exact hhead ⟨hc.1, hc.2⟩
  · intro stored h
    unfold Params.UnmarshalJSON at h
    split at h
    · cases h
    · split at h
      · cases h
      · cases h; rfl

/-- C10 witness: the theorem applied at the concrete input of a left
bracket followed by a quote. -/
theorem c10_witness :
    ([91, 34] : List Nat) ≠ [] ∧ (91 :: [34]).head? = some 91 ∧
      Params.UnmarshalJSON [91, 34] = .ok [91, 34] ∧ ([91, 34] : List Nat) = [91, 34] :=
  ⟨by decide, by decide, (c10_params_shape_only).2,
    (c10_params_shape_only).1 [91, 34] |>.2 [91, 34] (c10_params_shape_only).2⟩

/-- C5: with empty (absent) params, the decoder returns the zero value
with no error exactly for the canonical empty-struct destination, and
the empty-params error for every other destination shape, of any kind. -/
theorem c5_empty_params (S : GoShape β γ) :
    (S.isCanonicalEmptyStruct = true → ParamsDecoder S none = .ok S.zero) ∧
    (S.isCanonicalEmptyStruct = false → ParamsDecoder S none = .error .emptyParams) := by
  constructor <;> intro h <;> simp [ParamsDecoder, h]

/-- C5 witness: the theorem applied to a concrete canonical empty-struct
shape and to a concrete one-field record shape. -/
theorem c5_witness :
    ParamsDecoder emptyStructShape none = .ok () ∧
    ParamsDecoder testObjShape none = .error .emptyParams :=
  ⟨(c5_empty_params emptyStructShape).1 rfl, (c5_empty_params testObjShape).2 rfl⟩

/-- C3: for a record destination decoded from a wire array, an array
length different from the declared field count fails with a count
mismatch (early return, both shorter and longer); with matching length,
element i binds to field i in declaration order, every element/field
pair is attempted independently, and all per-field failures are
reported joined in index order rather than stopping at the first one. -/
theorem c3_positional_binding (S : GoShape β γ) (items : List Json)
    (hk : S.kind = .strukt) :
    (items.length ≠ S.fieldZeros.length →
      ParamsDecoder S (some (.arr items)) =
        .error (.countMismatch S.fieldZeros.length items.length)) ∧
    (items.length = S.fieldZeros.length →
      (∀ j it a, items.get? j = some it → S.fieldDec j it = .ok a →
        (boundFields S.fieldDec S.fieldZeros items 0).get? j = some a) ∧
      (fieldFailures S.fieldDec items 0 = [] →
        ParamsDecoder S (some (.arr items)) =
          .ok (S.fromFields (boundFields S.fieldDec S.fieldZeros items 0))) ∧
      (fieldFailures S.fieldDec items 0 ≠ [] →
        ParamsDecoder S (some (.arr items)) =
          .error (.fieldErrs (fieldFailures S.fieldDec items 0)))) := by
  constructor
  · intro hlen
    simp [ParamsDecoder, hk, Ne.symm hlen]
  · intro hlen
    refine ⟨?_, ?_, ?_⟩
    · intro j it a hget hdec
      exact boundFields_get S.fieldDec S.fieldZeros items 0 j it a hlen hget
        (by simpa using hdec)
    · intro hnofail
      simp [ParamsDecoder, hk, hlen, fieldsLoop_eq_spec S.fieldDec S.fieldZeros items 0 hlen,
        hnofail]
    · intro hfail
      simp [ParamsDecoder, hk, hlen, fieldsLoop_eq_spec S.fieldDec S.fieldZeros items 0 hlen,
        List.isEmpty_iff, hfail]

/-- C3 witness: the theorem applied to the two-field record of the
tests. The array of a string then a number binds by position; the
three-element and one-element arrays fail with a count mismatch; an
array with a number in the string position and a string in the number
position reports both field failures joined. -/
theorem c3_witness :
    (testObjShape.kind = .strukt ∧
      ([Json.str "hello", Json.num [49, 50, 51, 52]] : List Json).length = 2) ∧
    ParamsDecoder testObjShape (some (.arr [.str "hello", .num [49, 50, 51, 52]])) =
      .ok [.str "hello", .num [49, 50, 51, 52]] ∧
    ParamsDecoder testObjShape (some (.arr [.str "hello", .num [49], .str "extra"])) =
      .error (.countMismatch 2 3) ∧
    ParamsDecoder testObjShape (some (.arr [.str "hello"])) =
      .error (.countMismatch 2 1) ∧
    ParamsDecoder testObjShape (some (.arr [.num [57], .str "x"])) =
      .error (.fieldErrs [(0, "cannot unmarshal value into field"),
        (1, "cannot unmarshal value into field")]) := by
  refine ⟨⟨rfl, rfl⟩, ?_, ?_, ?_, ?_⟩
  · exact ((c3_positional_binding testObjShape
      [.str "hello", .num [49, 50, 51, 52]] rfl).2 rfl).2.1 rfl
  · exact (c3_positional_binding testObjShape
      [.str "hello", .num [49], .str "extra"] rfl).1 (by decide)
  · exact (c3_positional_binding testObjShape [.str "hello"] rfl).1 (by decide)
  · exact ((c3_positional_binding testObjShape [.num [57], .str "x"] rfl).2 rfl).2.2
      (by decide)

/-! ## The RequestID grammar of claim C4 and its exact counterpart -/

theorem scanStringBody_split :
    ∀ n (l t : List Nat), l.length ≤ n → scanStringBody l = some t →
      ∃ pre, l = pre ++ 34 :: t := by
  intro n
  induction n with
  | zero =>
    intro l t hl h
    match l with
    | [] => rw [scanStringBody.eq_def] at h; dsimp only at h; cases h
    | _ :: _ => simp at hl
  | succ n ih =>
    intro l t hl h
    match l with
    | [] => rw [scanStringBody.eq_def] at h; dsimp only at h; cases h
    | b :: rest =>
      rw [scanStringBody.eq_def] at h
      dsimp only at h
      split at h
      · rename_i hb
        cases h
        exact ⟨[], by simp [hb]⟩
      · split at h
        · rename_i hb hb92
          split at h
          · cases h
          · rename_i e rest2
            split at h
            · obtain ⟨pre, hpre⟩ := ih rest2 t (by simp at hl ⊢; omega) h
              exact ⟨b :: e :: pre, by simp [hpre]⟩
            · split at h
              · split at h
                · rename_i h1 h2 h3 h4 rest3
                  split at h
                  · obtain ⟨pre, hpre⟩ := ih rest3 t (by simp at hl ⊢; omega) h
                    exact ⟨b :: e :: h1 :: h2 :: h3 :: h4 :: pre, by simp [hpre]⟩
                  · cases h
                · cases h
              · cases h
        · split at h
          · cases h
          · obtain ⟨pre, hpre⟩ := ih rest t (by simp at hl ⊢; omega) h
            exact ⟨b :: pre, by simp [hpre]⟩

theorem getLast_of_all_space (l : List Nat) (b : Nat)
    (hall : l.all isSpaceByte = true) (hlast : l.getLast? = some b) :
    isSpaceByte b = true := by
  have hne : l ≠ [] := by rintro rfl; simp at hlast
  have hmem : b ∈ l := by
    rw [List.getLast?_eq_getLast_of_ne_nil hne] at hlast
    cases hlast
    exact List.getLast_mem hne
  exact (List.all_eq_true.mp hall) b hmem

theorem string_branch_equiv (rest : List Nat) :
    (decide (((34 : Nat) :: rest).getLast? = some 34) &&
      goJsonValidString (34 :: rest)) = isJsonStringLit (34 :: rest) := by
  rw [goJsonValidString, isJsonStringLit]
  cases hscan : scanStringBody rest with
  | none => simp
  | some tail =>
    cases htail : tail with
    | nil =>
      subst htail
      obtain ⟨pre, hpre⟩ := scanStringBody_split rest.length rest [] le_rfl hscan
      have hlast : ((34 : Nat) :: rest).getLast? = some 34 := by
        rw [hpre, ← List.cons_append, List.getLast?_append_cons]
        rfl
      simp [hlast]
    | cons x t2 =>
      subst htail
      cases hall : (x :: t2).all isSpaceByte with
      | false => simp [hall]
      | true =>
        obtain ⟨pre, hpre⟩ := scanStringBody_split rest.length rest _ le_rfl hscan
        have hlast : ((34 : Nat) :: rest).getLast? = (x :: t2).getLast? := by
          rw [hpre, ← List.cons_append, List.getLast?_append_cons,
            List.getLast?_cons_cons]
        have hl2 : (x :: t2).getLast? =
            some ((x :: t2).getLast (by simp)) :=
          List.getLast?_eq_getLast_of_ne_nil (by simp)
        have hsp := getLast_of_all_space _ _ hall hl2
        have hne34 : (x :: t2).getLast (by simp) ≠ 34 := by
          intro hb
          rw [hb] at hsp
          simp [isSpaceByte] at hsp
        simp only [hall, Bool.and_true, hlast, hl2]
        simp [hne34]

/-- C4 counterexample: the claim grammar accepts the four-byte id of a
quoted invalid escape (quote, backslash, x, quote) while RawID.IsValid
rejects it, and the claim grammar rejects a 67-digit id (its bound is
66 bytes) while RawID.IsValid accepts it (the source bound maxIDLength
is 68), so the claimed exact characterization fails in both
directions. -/
theorem c4_counterexample :
    (claimIdValid [34, 92, 120, 34] = true ∧ RawID.IsValid [34, 92, 120, 34] = false) ∧
    (claimIdValid (List.replicate 67 49) = false ∧
      RawID.IsValid (List.replicate 67 49) = true) := by
  refine ⟨⟨by decide, by decide⟩, ⟨by decide, by decide⟩⟩

/-- C4 amended: RawID.IsValid accepts exactly the zero-length
notification encoding, the literal null, non-empty unsigned decimal
digit strings, and complete JSON string literals (legal escapes only),
the non-empty forms bounded by maxIDLength, which is 68 bytes; floats,
booleans, arrays, objects and any leading or trailing whitespace are
therefore rejected, as none of them is such an encoding. -/
theorem c4_id_grammar : ∀ id : List Nat, RawID.IsValid id = amendedIdValid id := by
  intro id
  have hm : maxIDLength = 68 := rfl
  rw [RawID.IsValid, amendedIdValid]
  by_cases h0 : id.length = 0
  · rw [List.length_eq_zero] at h0
    subst h0
    rfl
  · rw [if_neg h0]
    have hne : id ≠ [] := by
      intro hc
      subst hc
      simp at h0
    by_cases hbig : id.length > maxIDLength
    · rw [if_pos hbig]
      have h2 : id ≠ nullBytes := by
        intro hc
        rw [hc] at hbig
        rw [hm] at hbig
        simp [nullBytes] at hbig
      have h3 : ¬ id.length ≤ maxIDLength := by omega
      simp [hne, h2, h3]
    · rw [if_neg hbig]
      by_cases hnull : id = nullBytes
      · rw [if_pos hnull]
        simp [hnull]
      · rw [if_neg hnull]
        by_cases hhead : id.head? = some 34
        · rw [if_pos hhead]
          obtain ⟨rest, rfl⟩ : ∃ rest, id = 34 :: rest := by
            match id, hhead with
            | b :: rest, hh =>
              simp only [List.head?] at hh
              cases hh
              exact ⟨rest, rfl⟩
          rw [string_branch_equiv rest]
          have hdig : ((34 : Nat) :: rest).all isDigitByte = false := by
            simp [isDigitByte]
          have hle : rest.length + 1 ≤ maxIDLength := by
            simp only [List.length_cons] at hbig
            omega
          simp [hne, hnull, hdig, hle]
        · rw [if_neg hhead]
          have hlit : isJsonStringLit id = false := by
            match id, hne with
            | b :: rest, _ =>
              have hb : b ≠ 34 := by
                intro hc
                subst hc
                exact hhead rfl
              simp [isJsonStringLit, hb]
          have hle : id.length ≤ maxIDLength := by omega
          simp [hne, hnull, hlit, hle]

/-! ## Decode acceptance facts shared by the envelope claims -/

theorem decode_ok_check (j : Json) (m : Message) (h : decodeMessage j = .ok m) :
    checkMessage m = none := by
  cases j with
  | obj ms =>
    simp only [decodeMessage] at h
    cases hd : decodeMembers emptyMessage ms with
    | error e => rw [hd] at h; cases h
    | ok m2 =>
      rw [hd] at h
      dsimp only at h
      cases hc : checkMessage m2 with
      | some e => rw [hc] at h; cases h
      | none => rw [hc] at h; cases h; exact hc
  | null => simp [decodeMessage, checkMessage, emptyMessage] at h
  | bool b => simp [decodeMessage] at h
  | num lit => simp [decodeMessage] at h
  | str s => simp [decodeMessage] at h
  | arr xs => simp [decodeMessage] at h

theorem check_none_facts (m : Message) (hc : checkMessage m = none) :
    (m.request.isSome ↔ m.response = none) ∧ (m.response.isSome → m.id.isSome) := by
  unfold checkMessage at hc
  cases hr : m.response with
  | some rp =>
    rw [hr] at hc
    by_cases hq : m.request.isSome
    · rw [if_pos hq] at hc; cases hc
    · rw [if_neg hq] at hc
      by_cases hid : m.id.isNone
      · rw [if_pos hid] at hc; cases hc
      · refine ⟨⟨fun h => absurd h hq, fun h => by cases h⟩, fun _ => ?_⟩
        cases hi : m.id with
        | none => rw [hi] at hid; simp at hid
        | some v => rfl
  | none =>
    rw [hr] at hc
    by_cases hq : m.request.isNone
    · rw [if_pos hq] at hc; cases hc
    · constructor
      · constructor
        · intro; rfl
        · intro
          cases hv : m.request with
          | none => rw [hv] at hq; simp at hq
          | some r => rfl
      · intro h; simp at h

/-! ## C6 -/

/-- C6: for every Message that is not itself a Response, Respond never
fails: with a serializable payload it yields a success Response with
the same id; with a failing payload serialization it yields an
InternalError-coded error Response whose message is the catalog text,
a colon and space, and the cause text — and the produced Message is a
Response-only envelope that passes the message check whenever the
receiver has an id. -/
theorem c6_respond_total (m : Message) (enc : Except String Json)
    (h : m.response = none) :
    ∃ m2, m.Respond enc = some m2 ∧ m2.id = m.id ∧ m2.request = none ∧
      ((∃ x, enc = .ok x ∧
          m2.response = some { result := some x, error := none }) ∨
       (∃ e, enc = .error e ∧
          m2.response = some ⟨none, some ⟨-32603,
            "Internal error" ++ ": " ++ ("failed to encode response: " ++ e), none⟩⟩)) ∧
      (m.id.isSome → checkMessage m2 = none) := by
  have hmsg : ErrorConst.Message InternalError = "Internal error" := by rfl
  refine ⟨{ request := none, response := some (Jsonrpc2.Respond enc), id := m.id },
    ?_, rfl, rfl, ?_, ?_⟩
  · rw [Message.Respond, h]
    rfl
  · cases enc with
    | ok x => exact Or.inl ⟨x, rfl, rfl⟩
    | error e =>
      refine Or.inr ⟨e, rfl, ?_⟩
      simp only [Jsonrpc2.Respond, RespondSuccess, AnnotatedErrorObj, hmsg]
      rfl
  · intro hid
    simp only [checkMessage, Option.isSome_none, if_neg]
    cases hi : m.id with
    | none => rw [hi] at hid; simp at hid
    | some v => rfl

/-- C6 witness: the theorem applied to a concrete request message with
id 1, for a successful payload serialization, with the hypothesis
discharged definitionally. -/
theorem c6_witness :
    c6SampleMessage.response = none ∧
    (∃ m2, c6SampleMessage.Respond (.ok (.num [48])) = some m2 ∧
      m2.id = c6SampleMessage.id ∧ m2.request = none ∧
      ((∃ x, (Except.ok (.num [48]) : Except String Json) = .ok x ∧
          m2.response = some { result := some x, error := none }) ∨
       (∃ e, (Except.ok (.num [48]) : Except String Json) = .error e ∧
          m2.response = some ⟨none, some ⟨-32603,
            "Internal error" ++ ": " ++ ("failed to encode response: " ++ e), none⟩⟩)) ∧
      (c6SampleMessage.id.isSome → checkMessage m2 = none)) :=
  ⟨rfl, c6_respond_total c6SampleMessage (.ok (.num [48])) rfl⟩

/-! ## C8 -/

/-- C8 counterexample: MarshalJSON on a both-set Message serializes
first and returns the serialized document together with the Check
error, so the encoding fails but serialized output is produced, not
suppressed: the claim that it fails before producing any bytes is
false. -/
theorem c8_counterexample :
    (Message.MarshalJSON bothSetMessage).2.isSome = true ∧
    (Message.MarshalJSON bothSetMessage).1 =
      some (.obj [("method", .str "m"), ("result", .num [49]), ("id", .num [49]),
        ("jsonrpc", .str "2.0")]) :=
  ⟨rfl, rfl⟩

/-- C8 amended: encoding a Message with both Request and Response set
always fails (MarshalJSON returns a non-nil error), but the failure
comes from the Check that runs after serialization: when the marshal
itself succeeds, the serialized bytes are returned alongside the
error rather than being withheld. -/
theorem c8_bothset_marshal_fails (m : Message)
    (hq : m.request.isSome = true) (hp : m.response.isSome = true) :
    (Message.MarshalJSON m).2.isSome = true ∧
    (∀ fs, marshalFields m = .ok fs →
      (Message.MarshalJSON m).1 = some (.obj fs)) := by
  constructor
  · rw [Message.MarshalJSON]
    cases hf : marshalFields m with
    | error e => rfl
    | ok fs =>
      simp only
      rw [checkMessage]
      cases hr : m.response with
      | none => rw [hr] at hp; simp at hp
      | some rp => simp [hq]
  · intro fs hf
    rw [Message.MarshalJSON, hf]

/-- C8 witness: the amended theorem applied to the concrete both-set
message, with its hypotheses discharged definitionally. -/
theorem c8_witness :
    bothSetMessage.request.isSome = true ∧ bothSetMessage.response.isSome = true ∧
    (Message.MarshalJSON bothSetMessage).2.isSome = true :=
  ⟨rfl, rfl, (c8_bothset_marshal_fails bothSetMessage rfl rfl).1⟩

/-! ## C2 -/

theorem stepMember_method (st : Message) (v : Json) :
    stepMember st "method" v = decodeMethodMember st v := by
  rw [stepMember, show keyFor "method" = KeyT.kmethod from by decide]

theorem stepMember_params (st : Message) (v : Json) :
    stepMember st "params" v = decodeParamsMember st v := by
  rw [stepMember, show keyFor "params" = KeyT.kparams from by decide]

theorem stepMember_result (st : Message) (v : Json) :
    stepMember st "result" v = decodeResultMember st v := by
  rw [stepMember, show keyFor "result" = KeyT.kresult from by decide]

theorem stepMember_error (st : Message) (v : Json) :
    stepMember st "error" v = decodeErrorMember st v := by
  rw [stepMember, show keyFor "error" = KeyT.kerror from by decide]

theorem stepMember_id (st : Message) (v : Json) :
    stepMember st "id" v = decodeIdMember st v := by
  rw [stepMember, show keyFor "id" = KeyT.kid from by decide]

theorem stepMember_jsonrpc (st : Message) (v : Json) :
    stepMember st "jsonrpc" v = decodeVersionMember st v := by
  rw [stepMember, show keyFor "jsonrpc" = KeyT.kjsonrpc from by decide]

theorem stepMember_jsonrpc_bad (st : Message) (v : Json) (hv : v ≠ .str "2.0") :
    ∃ e, stepMember st "jsonrpc" v = .error e := by
  rw [stepMember_jsonrpc]
  cases v with
  | str s =>
    have hs : (s == "2.0") = false := by
      cases hb : s == "2.0"
      · rfl
      · rw [beq_iff_eq] at hb
        exact absurd (by rw [hb]) hv
    exact ⟨"invalid JSON RPC version", by rw [decodeVersionMember, if_neg (by simp [hs])]⟩
  | null => exact ⟨"cannot unmarshal value into version marker", rfl⟩
  | bool b => exact ⟨"cannot unmarshal value into version marker", rfl⟩
  | num lit => exact ⟨"cannot unmarshal value into version marker", rfl⟩
  | arr xs => exact ⟨"cannot unmarshal value into version marker", rfl⟩
  | obj mems => exact ⟨"cannot unmarshal value into version marker", rfl⟩

theorem decodeMembers_jsonrpc_bad (v : Json) (hv : v ≠ .str "2.0") :
    ∀ (ms : List (String × Json)) (st : Message), ("jsonrpc", v) ∈ ms →
      (decodeMembers st ms).isOk = false := by
  intro ms
  induction ms with
  | nil => intro st hmem; cases hmem
  | cons kv rest ih =>
    intro st hmem
    rcases List.mem_cons.mp hmem with heq | htail
    · subst heq
      obtain ⟨e, he⟩ := stepMember_jsonrpc_bad st v hv
      rw [decodeMembers, he]
      rfl
    · obtain ⟨k0, v0⟩ := kv
      rw [decodeMembers]
      cases hs : stepMember st k0 v0 with
      | error e => rfl
      | ok st2 => exact ih st2 htail

/-- C2 counterexample: a message with no jsonrpc field at all decodes
successfully (an absent key never reaches V2.UnmarshalText, leaving the
zero version marker unchecked), refuting the claim that decoding a
message whose jsonrpc field is missing fails. -/
theorem c2_counterexample :
    decodeMessage (.obj [("method", .str "foobar")]) =
      .ok ⟨some ⟨"foobar", none⟩, none, none⟩ := rfl

/-- C2 amended: the version check applies only when the jsonrpc field
is present — any member list carrying a jsonrpc key with a value other
than the string 2.0 is rejected, while a missing jsonrpc field is
accepted; every accepted message has exactly one of Request/Response,
and an accepted Response always has an id; in particular the response
with jsonrpc 2.0 and result 1 but no id field fails with the
responses-cannot-be-notifications error. -/
theorem c2_envelope_invariants :
    (∀ (ms : List (String × Json)) (v : Json), ("jsonrpc", v) ∈ ms → v ≠ .str "2.0" →
      (decodeMessage (.obj ms)).isOk = false) ∧
    (∀ (j : Json) (m : Message), decodeMessage j = .ok m →
      (m.request.isSome ↔ m.response = none) ∧ (m.response.isSome → m.id.isSome)) ∧
    decodeMessage (.obj [("jsonrpc", .str "2.0"), ("result", .num [49])]) =
      .error "responses cannot be notifications" ∧
    (decodeMessage (.obj [("method", .str "foobar")])).isOk = true := by
  refine ⟨?_, ?_, rfl, rfl⟩
  · intro ms v hmem hv
    simp only [decodeMessage]
    cases hd : decodeMembers emptyMessage ms with
    | error e => rfl
    | ok m2 =>
      have hbad := decodeMembers_jsonrpc_bad v hv ms emptyMessage hmem
      rw [hd] at hbad
      simp [Except.isOk, Except.toBool] at hbad
  · intro j m h
    exact check_none_facts m (decode_ok_check j m h)

/-- C2 witness: the amended theorem applied at concrete inputs — a
message with jsonrpc 1.0 is rejected, and the exclusivity invariant
holds for a decoded bare request. -/
theorem c2_witness :
    (("jsonrpc", Json.str "1.0") ∈ [("jsonrpc", Json.str "1.0"), ("method", Json.str "x")] ∧
      (Json.str "1.0" : Json) ≠ .str "2.0" ∧
      (decodeMessage (.obj [("jsonrpc", .str "1.0"), ("method", .str "x")])).isOk = false) ∧
    (decodeMessage (.obj [("method", .str "x")]) = .ok c2SampleMessage ∧
      (c2SampleMessage.request.isSome ↔ c2SampleMessage.response = none)) :=
  ⟨⟨List.mem_cons_self _ _, by simp,
    (c2_envelope_invariants).1 [("jsonrpc", .str "1.0"), ("method", .str "x")]
      (.str "1.0") (List.mem_cons_self _ _) (by simp)⟩,
   ⟨rfl, ((c2_envelope_invariants).2.1 (.obj [("method", .str "x")]) c2SampleMessage rfl).1⟩⟩

/-! ## C7 -/

/-- C7 counterexample: decode accepts a response message in which both
the result and error members are present — Check never inspects the
interior of the Response — refuting the claimed exclusivity. -/
theorem c7_counterexample :
    decodeMessage c7BothInput = .ok c7BothMessage ∧
    c7BothMessage.response = some ⟨some (.num [49]), some ⟨1, "x", none⟩⟩ := ⟨rfl, rfl⟩

/-- C7 amended: decode enforces no exclusivity inside a Response: an
accepted Response only guarantees that no Request is present and that
the id is not the notification id; a response whose result member is
null is accepted with neither result nor error present, and one with
both members is accepted as well. -/
theorem c7_response_members :
    (∀ (j : Json) (m : Message) (rp : Response), decodeMessage j = .ok m →
      m.response = some rp → m.request = none ∧ m.id.isSome) ∧
    (∃ m, decodeMessage (.obj [("jsonrpc", .str "2.0"), ("result", .null),
        ("id", .num [49])]) = .ok m ∧
      m.response = some ⟨none, none⟩) := by
  constructor
  · intro j m rp h hr
    have hf := check_none_facts m (decode_ok_check j m h)
    refine ⟨?_, hf.2 (by rw [hr]; rfl)⟩
    cases hq : m.request with
    | none => rfl
    | some r =>
      have hc : m.response = none := hf.1.mp (by rw [hq]; rfl)
      rw [hr] at hc
      cases hc
  · exact ⟨⟨none, some ⟨none, none⟩, some (.num [49])⟩, rfl, rfl⟩

/-- C7 witness: the amended theorem applied to the concrete accepted
message carrying both result and error. -/
theorem c7_witness :
    (decodeMessage c7BothInput = .ok c7BothMessage ∧
      c7BothMessage.response = some ⟨some (.num [49]), some ⟨1, "x", none⟩⟩) ∧
    c7BothMessage.request = none ∧ c7BothMessage.id.isSome :=
  ⟨⟨rfl, rfl⟩,
    (c7_response_members).1 c7BothInput c7BothMessage
      ⟨some (.num [49]), some ⟨1, "x", none⟩⟩ rfl rfl⟩

/-! ## C1: integer literal round-trip -/

theorem natDigitsBytes_ne_nil (n : Nat) : natDigitsBytes n ≠ [] := by
  rw [natDigitsBytes]
  split
  · simp
  · simp

theorem natDigitsBytes_all_digit (n : Nat) : (natDigitsBytes n).all isDigitByte = true := by
  induction n using Nat.strong_induction_on with
  | _ n ih =>
    rw [natDigitsBytes]
    split
    · rename_i h
      simp [isDigitByte]
      omega
    · rename_i h
      rw [List.all_append]
      refine Bool.and_eq_true .. |>.mpr ⟨ih (n / 10) (Nat.div_lt_self (by omega) (by omega)), ?_⟩
      simp [isDigitByte]
      omega

theorem natDigitsBytes_foldl (n : Nat) :
    ∀ acc, (natDigitsBytes n).foldl (fun a b => a * 10 + (b - 48)) acc =
      acc * 10 ^ (natDigitsBytes n).length + n := by
  induction n using Nat.strong_induction_on with
  | _ n ih =>
    intro acc
    rw [natDigitsBytes]
    split
    · rename_i h
      simp only [List.foldl_cons, List.foldl_nil, List.length_cons, List.length_nil,
        Nat.zero_add, pow_one]
      omega
    · rename_i h
      rw [List.foldl_append, List.length_append]
      rw [ih (n / 10) (Nat.div_lt_self (by omega) (by omega))]
      simp only [List.foldl_cons, List.foldl_nil, List.length_cons, List.length_nil,
        Nat.zero_add, pow_succ, ← mul_assoc]
      omega

theorem parseNatDigits_natDigits (n : Nat) : parseNatDigits (natDigitsBytes n) = some n := by
  rw [parseNatDigits, if_pos ⟨natDigitsBytes_ne_nil n, natDigitsBytes_all_digit n⟩]
  rw [natDigitsBytes_foldl n 0]
  simp

theorem parseInt64_intLit (c : Int) (h1 : -(2 ^ 63) ≤ c) (h2 : c ≤ 2 ^ 63 - 1) :
    parseInt64 (intLitBytes c) = some c := by
  rw [intLitBytes]
  split
  · rename_i hneg
    have habs : (c.natAbs : Int) = -c := by omega
    have hle : c.natAbs ≤ 2 ^ 63 := by omega
    rw [parseInt64, parseNatDigits_natDigits, if_pos rfl]
    show Option.bind (some c.natAbs) _ = some c
    rw [Option.some_bind, if_pos hle, habs]
    simp
  · rename_i hpos
    have hto : (c.toNat : Int) = c := Int.toNat_of_nonneg (by omega)
    have hle : c.toNat ≤ 2 ^ 63 - 1 := by omega
    obtain ⟨b, rest, hbr⟩ : ∃ b rest, natDigitsBytes c.toNat = b :: rest := by
      cases hx : natDigitsBytes c.toNat with
      | nil => exact absurd hx (natDigitsBytes_ne_nil _)
      | cons b rest => exact ⟨b, rest, rfl⟩
    have hdig : isDigitByte b = true := by
      have hall := natDigitsBytes_all_digit c.toNat
      rw [hbr, List.all_cons, Bool.and_eq_true] at hall
      exact hall.1
    have hb45 : ¬ b = 45 := by simp [isDigitByte] at hdig; omega
    have hb43 : ¬ b = 43 := by simp [isDigitByte] at hdig; omega
    rw [hbr, parseInt64, if_neg hb45, if_neg hb43, ← hbr, parseNatDigits_natDigits]
    rw [Option.some_bind, if_pos hle, hto]

theorem parseInt64_range (bs : List Nat) (c : Int) (h : parseInt64 bs = some c) :
    -(2 ^ 63) ≤ c ∧ c ≤ 2 ^ 63 - 1 := by
  match bs, h with
  | b :: rest, h =>
    rw [parseInt64] at h
    split at h
    · cases hp : parseNatDigits rest with
      | none => rw [hp] at h; cases h
      | some n =>
        rw [hp, Option.some_bind] at h
        split at h
        · rename_i hn
          cases h
          constructor <;> omega
        · cases h
    · split at h
      · cases hp : parseNatDigits rest with
        | none => rw [hp] at h; cases h
        | some n =>
          rw [hp, Option.some_bind] at h
          split at h
          · rename_i hn
            cases h
            constructor <;> omega
          · cases h
      · cases hp : parseNatDigits (b :: rest) with
        | none => rw [hp] at h; cases h
        | some n =>
          rw [hp, Option.some_bind] at h
          split at h
          · rename_i hn
            cases h
            constructor <;> omega
          · cases h

/-! ## C1: invariants every decoded message satisfies -/

theorem stepErrorMember_wf (eo eo2 : ErrorObject) (k : String) (v : Json)
    (h : stepErrorMember eo k v = .ok eo2) (hwf : ErrWF eo) : ErrWF eo2 := by
  rw [stepErrorMember] at h
  split at h
  · cases v with
    | null => cases h; exact hwf
    | num lit =>
      rw [decodeCodeMember] at h
      cases hp : parseInt64 lit with
      | none => rw [hp] at h; cases h
      | some c =>
        rw [hp] at h
        cases h
        exact parseInt64_range lit c hp
    | bool b => cases h
    | str s => cases h
    | arr xs => cases h
    | obj ms => cases h
  · split at h
    · cases v with
      | null => cases h; exact hwf
      | str s => cases h; exact hwf
      | bool b => cases h
      | num lit => cases h
      | arr xs => cases h
      | obj ms => cases h
    · split at h
      · cases h; exact hwf
      · cases h; exact hwf

theorem decodeErrorMembers_wf (ems : List (String × Json)) :
    ∀ (eo eo2 : ErrorObject), decodeErrorMembers eo ems = .ok eo2 → ErrWF eo → ErrWF eo2 := by
  induction ems with
  | nil => intro eo eo2 h hwf; cases h; exact hwf
  | cons kv rest ih =>
    intro eo eo2 h hwf
    obtain ⟨k, v⟩ := kv
    rw [decodeErrorMembers] at h
    cases hs : stepErrorMember eo k v with
    | error e => rw [hs] at h; cases h
    | ok eoMid =>
      rw [hs] at h
      exact ih eoMid eo2 h (stepErrorMember_wf eo eoMid k v hs hwf)

theorem reqState_params_wf (st : Message) (hwf : MsgWF st) (p : Json)
    (hp : (reqState st).params = some p) : p.isContainer = true := by
  rw [reqState] at hp
  cases hq : st.request with
  | none => rw [hq] at hp; simp at hp
  | some r0 =>
    rw [hq] at hp
    simp only [Option.getD_some] at hp
    exact hwf.1 r0 p hq hp

theorem respState_result_wf (st : Message) (hwf : MsgWF st) (v : Json)
    (hv : (respState st).result = some v) : v.isNull = false := by
  rw [respState] at hv
  cases hq : st.response with
  | none => rw [hq] at hv; simp at hv
  | some rp0 =>
    rw [hq] at hv
    simp only [Option.getD_some] at hv
    exact hwf.2.1 rp0 v hq hv

theorem respState_error_wf (st : Message) (hwf : MsgWF st) (eo : ErrorObject)
    (he : (respState st).error = some eo) : ErrWF eo := by
  rw [respState] at he
  cases hq : st.response with
  | none => rw [hq] at he; simp at he
  | some rp0 =>
    rw [hq] at he
    simp only [Option.getD_some] at he
    exact hwf.2.2.1 rp0 eo hq he

theorem respState_error_start_wf (st : Message) (hwf : MsgWF st) :
    ErrWF ((respState st).error.getD zeroErrorObject) := by
  cases he : (respState st).error with
  | none => exact ⟨by norm_num [zeroErrorObject], by norm_num [zeroErrorObject]⟩
  | some eo0 => simpa using respState_error_wf st hwf eo0 he

theorem stepMember_wf (st st2 : Message) (k : String) (v : Json)
    (h : stepMember st k v = .ok st2) (hwf : MsgWF st) : MsgWF st2 := by
  rw [stepMember] at h
  cases hk : keyFor k <;> rw [hk] at h <;> dsimp only at h
  case kmethod =>
    cases v with
    | null =>
      cases h
      exact ⟨fun r p hr hp => by
          rw [Option.some_inj] at hr
          subst hr
          exact reqState_params_wf st hwf p hp,
        hwf.2.1, hwf.2.2.1, hwf.2.2.2⟩
    | str s =>
      cases h
      exact ⟨fun r p hr hp => by
          rw [Option.some_inj] at hr
          subst hr
          exact reqState_params_wf st hwf p hp,
        hwf.2.1, hwf.2.2.1, hwf.2.2.2⟩
    | bool b => cases h
    | num lit => cases h
    | arr xs => cases h
    | obj ms => cases h
  case kparams =>
    rw [decodeParamsMember] at h
    split at h
    · rename_i hcont
      cases h
      exact ⟨fun r p hr hp => by
          rw [Option.some_inj] at hr
          subst hr
          simp only at hp
          rw [Option.some_inj] at hp
          subst hp
          exact hcont,
        hwf.2.1, hwf.2.2.1, hwf.2.2.2⟩
    · cases h
  case kresult =>
    rw [decodeResultMember] at h
    split at h
    · cases h
      refine ⟨hwf.1, ?_, ?_, hwf.2.2.2⟩
      · intro rp v2 hr hv
        rw [Option.some_inj] at hr
        subst hr
        cases hv
      · intro rp eo hr he
        rw [Option.some_inj] at hr
        subst hr
        exact respState_error_wf st hwf eo he
    · rename_i hnn
      cases h
      refine ⟨hwf.1, ?_, ?_, hwf.2.2.2⟩
      · intro rp v2 hr hv
        rw [Option.some_inj] at hr
        subst hr
        simp only at hv
        rw [Option.some_inj] at hv
        subst hv
        simpa using hnn
      · intro rp eo hr he
        rw [Option.some_inj] at hr
        subst hr
        exact respState_error_wf st hwf eo he
  case kerror =>
    cases v with
    | null =>
      cases h
      refine ⟨hwf.1, ?_, ?_, hwf.2.2.2⟩
      · intro rp v2 hr hv
        rw [Option.some_inj] at hr
        subst hr
        exact respState_result_wf st hwf v2 hv
      · intro rp eo hr he
        rw [Option.some_inj] at hr
        subst hr
        cases he
    | obj ems =>
      rw [decodeErrorMember] at h
      cases hd : decodeErrorMembers ((respState st).error.getD zeroErrorObject) ems with
      | error e => rw [hd] at h; cases h
      | ok eo1 =>
        rw [hd] at h
        cases h
        have heo1 := decodeErrorMembers_wf ems _ eo1 hd (respState_error_start_wf st hwf)
        refine ⟨hwf.1, ?_, ?_, hwf.2.2.2⟩
        · intro rp v2 hr hv
          rw [Option.some_inj] at hr
          subst hr
          exact respState_result_wf st hwf v2 hv
        · intro rp eo hr he
          rw [Option.some_inj] at hr
          subst hr
          simp only at he
          rw [Option.some_inj] at he
          subst he
          exact heo1
    | bool b => cases h
    | num lit => cases h
    | str s => cases h
    | arr xs => cases h
  case kid =>
    rw [decodeIdMember] at h
    split at h
    · rename_i hvalid
      cases h
      refine ⟨hwf.1, hwf.2.1, hwf.2.2.1, ?_⟩
      intro v2 hv
      rw [Option.some_inj] at hv
      subst hv
      exact hvalid
    · cases h
  case kjsonrpc =>
    cases v with
    | str s =>
      rw [decodeVersionMember] at h
      split at h
      · cases h
        exact hwf
      · cases h
    | null => cases h
    | bool b => cases h
    | num lit => cases h
    | arr xs => cases h
    | obj ms => cases h
  case kother =>
    cases h
    exact hwf

theorem decodeMembers_wf (ms : List (String × Json)) :
    ∀ (st st2 : Message), decodeMembers st ms = .ok st2 → MsgWF st → MsgWF st2 := by
  induction ms with
  | nil => intro st st2 h hwf; cases h; exact hwf
  | cons kv rest ih =>
    intro st st2 h hwf
    obtain ⟨k, v⟩ := kv
    rw [decodeMembers] at h
    cases hs : stepMember st k v with
    | error e => rw [hs] at h; cases h
    | ok stMid =>
      rw [hs] at h
      exact ih stMid st2 h (stepMember_wf st stMid k v hs hwf)

theorem emptyMessage_wf : MsgWF emptyMessage := by
  refine ⟨?_, ?_, ?_, ?_⟩
  · intro r p hr hp; cases hr
  · intro rp v hr hv; cases hr
  · intro rp eo hr he; cases hr
  · intro v hv; cases hv

theorem decode_wf (j : Json) (m : Message) (h : decodeMessage j = .ok m) : MsgWF m := by
  cases j with
  | obj ms =>
    simp only [decodeMessage] at h
    cases hd : decodeMembers emptyMessage ms with
    | error e => rw [hd] at h; cases h
    | ok m2 =>
      rw [hd] at h
      dsimp only at h
      cases hc : checkMessage m2 with
      | some e => rw [hc] at h; cases h
      | none =>
        rw [hc] at h
        cases h
        exact decodeMembers_wf ms emptyMessage _ hd emptyMessage_wf
  | null => simp [decodeMessage, checkMessage, emptyMessage] at h
  | bool b => simp [decodeMessage] at h
  | num lit => simp [decodeMessage] at h
  | str s => simp [decodeMessage] at h
  | arr xs => simp [decodeMessage] at h

/-! ## C1: re-decoding an encoded well-formed message -/

theorem decodeMembers_cons_ok (st st2 : Message) (k : String) (v : Json)
    (rest : List (String × Json)) (h : stepMember st k v = .ok st2) :
    decodeMembers st ((k, v) :: rest) = decodeMembers st2 rest := by
  rw [decodeMembers, h]

theorem step_method_str (st : Message) (s : String) :
    stepMember st "method" (.str s) =
      .ok ⟨some ⟨s, (reqState st).params⟩, st.response, st.id⟩ := by
  rw [stepMember_method, decodeMethodMember]

theorem step_params_ok (st : Message) (p : Json) (hp : p.isContainer = true) :
    stepMember st "params" p =
      .ok ⟨some ⟨(reqState st).method, some p⟩, st.response, st.id⟩ := by
  rw [stepMember_params, decodeParamsMember, if_pos hp]

theorem step_result_some (st : Message) (v : Json) (hv : v.isNull = false) :
    stepMember st "result" v =
      .ok ⟨st.request, some ⟨some v, (respState st).error⟩, st.id⟩ := by
  rw [stepMember_result, decodeResultMember, if_neg (by simp [hv])]

theorem step_error_zero (st : Message) (hresp : (respState st).error = none)
    (ems : List (String × Json)) (eo : ErrorObject)
    (h : decodeErrorMembers zeroErrorObject ems = .ok eo) :
    stepMember st "error" (.obj ems) =
      .ok ⟨st.request, some ⟨(respState st).result, some eo⟩, st.id⟩ := by
  rw [stepMember_error, decodeErrorMember, hresp, Option.getD_none, h]

theorem step_id_ok (st : Message) (v : Json) (hv : RawID.IsValid (serialize v) = true) :
    stepMember st "id" v = .ok ⟨st.request, st.response, some v⟩ := by
  rw [stepMember_id, decodeIdMember, if_pos hv]

theorem step_jsonrpc_ok (st : Message) :
    stepMember st "jsonrpc" (.str "2.0") = .ok st := by
  rw [stepMember_jsonrpc]
  rfl

theorem decodeErr_encode (eo : ErrorObject) (hwf : ErrWF eo) :
    decodeErrorMembers zeroErrorObject (errMembers eo) = .ok eo := by
  obtain ⟨code, msg, dat⟩ := eo
  obtain ⟨h1, h2⟩ := hwf
  have hparse := parseInt64_intLit code h1 h2
  have mk1 : matchKey "code" "code" = true := by decide
  have mk2 : matchKey "message" "code" = false := by decide
  have mk3 : matchKey "message" "message" = true := by decide
  have mk4 : matchKey "data" "code" = false := by decide
  have mk5 : matchKey "data" "message" = false := by decide
  have mk6 : matchKey "data" "data" = true := by decide
  cases dat with
  | none =>
    simp [errMembers, decodeErrorMembers, stepErrorMember, decodeCodeMember,
      decodeMsgTextMember, zeroErrorObject, mk1, mk2, mk3, hparse]
  | some d =>
    simp [errMembers, decodeErrorMembers, stepErrorMember, decodeCodeMember,
      decodeMsgTextMember, zeroErrorObject, mk1, mk2, mk3, mk4, mk5, mk6, hparse]

theorem decode_marshal_roundtrip (m : Message) (hwf : MsgWF m)
    (hchk : checkMessage m = none)
    (hne : ∀ rp, m.response = some rp → rp.result.isSome ∨ rp.error.isSome) :
    ∃ j2, Message.MarshalJSON m = (some j2, none) ∧ decodeMessage j2 = .ok m := by
  obtain ⟨req, resp, mid⟩ := m
  cases resp with
  | none =>
    cases req with
    | none => simp [checkMessage] at hchk
    | some r =>
      obtain ⟨meth, pars⟩ := r
      cases mid with
      | none =>
        cases pars with
        | none =>
          refine ⟨.obj [("method", .str meth), ("jsonrpc", .str "2.0")], by rfl, ?_⟩
          simp only [decodeMessage]
          rw [decodeMembers_cons_ok _ _ _ _ _ (step_method_str emptyMessage meth)]
          rw [decodeMembers_cons_ok _ _ _ _ _ (step_jsonrpc_ok _)]
          rfl
        | some p =>
          have hcont : p.isContainer = true := hwf.1 ⟨meth, some p⟩ p rfl rfl
          refine ⟨.obj [("method", .str meth), ("params", p),
            ("jsonrpc", .str "2.0")], by rfl, ?_⟩
          simp only [decodeMessage]
          rw [decodeMembers_cons_ok _ _ _ _ _ (step_method_str emptyMessage meth)]
          rw [decodeMembers_cons_ok _ _ _ _ _ (step_params_ok _ p hcont)]
          rw [decodeMembers_cons_ok _ _ _ _ _ (step_jsonrpc_ok _)]
          rfl
      | some iv =>
        have hvalid : RawID.IsValid (serialize iv) = true := hwf.2.2.2 iv rfl
        cases pars with
        | none =>
          have hf : marshalFields ⟨some ⟨meth, none⟩, none, some iv⟩ =
              .ok [("method", .str meth), ("id", iv), ("jsonrpc", .str "2.0")] := by
            simp [marshalFields, hvalid]
          refine ⟨.obj [("method", .str meth), ("id", iv), ("jsonrpc", .str "2.0")],
            by rw [Message.MarshalJSON, hf]; exact rfl, ?_⟩
          simp only [decodeMessage]
          rw [decodeMembers_cons_ok _ _ _ _ _ (step_method_str emptyMessage meth)]
          rw [decodeMembers_cons_ok _ _ _ _ _ (step_id_ok _ iv hvalid)]
          rw [decodeMembers_cons_ok _ _ _ _ _ (step_jsonrpc_ok _)]
          rfl
        | some p =>
          have hcont : p.isContainer = true := hwf.1 ⟨meth, some p⟩ p rfl rfl
          have hf : marshalFields ⟨some ⟨meth, some p⟩, none, some iv⟩ =
              .ok [("method", .str meth), ("params", p), ("id", iv),
                ("jsonrpc", .str "2.0")] := by
            simp [marshalFields, hvalid]
          refine ⟨.obj [("method", .str meth), ("params", p), ("id", iv),
            ("jsonrpc", .str "2.0")], by rw [Message.MarshalJSON, hf]; exact rfl, ?_⟩
          simp only [decodeMessage]
          rw [decodeMembers_cons_ok _ _ _ _ _ (step_method_str emptyMessage meth)]
          rw [decodeMembers_cons_ok _ _ _ _ _ (step_params_ok _ p hcont)]
          rw [decodeMembers_cons_ok _ _ _ _ _ (step_id_ok _ iv hvalid)]
          rw [decodeMembers_cons_ok _ _ _ _ _ (step_jsonrpc_ok _)]
          rfl
  | some rp =>
    obtain ⟨res, err⟩ := rp
    cases req with
    | some r => simp [checkMessage] at hchk
    | none =>
      cases mid with
      | none => simp [checkMessage] at hchk
      | some iv =>
        have hvalid : RawID.IsValid (serialize iv) = true := hwf.2.2.2 iv rfl
        cases res with
        | none =>
          cases err with
          | none =>
            rcases hne ⟨none, none⟩ rfl with hc | hc <;> simp at hc
          | some eo =>
            have hewf : ErrWF eo := hwf.2.2.1 ⟨none, some eo⟩ eo rfl rfl
            have herr := decodeErr_encode eo hewf
            have hf : marshalFields ⟨none, some ⟨none, some eo⟩, some iv⟩ =
                .ok [("error", .obj (errMembers eo)), ("id", iv),
                  ("jsonrpc", .str "2.0")] := by
              simp [marshalFields, encodeErrorObject, hvalid]
            refine ⟨.obj [("error", .obj (errMembers eo)), ("id", iv),
              ("jsonrpc", .str "2.0")], by rw [Message.MarshalJSON, hf]; exact rfl, ?_⟩
            simp only [decodeMessage]
            rw [decodeMembers_cons_ok _ _ _ _ _
              (step_error_zero emptyMessage rfl (errMembers eo) eo herr)]
            rw [decodeMembers_cons_ok _ _ _ _ _ (step_id_ok _ iv hvalid)]
            rw [decodeMembers_cons_ok _ _ _ _ _ (step_jsonrpc_ok _)]
            rfl
        | some v1 =>
          have hv1 : v1.isNull = false := hwf.2.1 ⟨some v1, err⟩ v1 rfl rfl
          cases err with
          | none =>
            have hf : marshalFields ⟨none, some ⟨some v1, none⟩, some iv⟩ =
                .ok [("result", v1), ("id", iv), ("jsonrpc", .str "2.0")] := by
              simp [marshalFields, hvalid]
            refine ⟨.obj [("result", v1), ("id", iv), ("jsonrpc", .str "2.0")],
              by rw [Message.MarshalJSON, hf]; exact rfl, ?_⟩
            simp only [decodeMessage]
            rw [decodeMembers_cons_ok _ _ _ _ _ (step_result_some emptyMessage v1 hv1)]
            rw [decodeMembers_cons_ok _ _ _ _ _ (step_id_ok _ iv hvalid)]
            rw [decodeMembers_cons_ok _ _ _ _ _ (step_jsonrpc_ok _)]
            rfl
          | some eo =>
            have hewf : ErrWF eo := hwf.2.2.1 ⟨some v1, some eo⟩ eo rfl rfl
            have herr := decodeErr_encode eo hewf
            have hf : marshalFields ⟨none, some ⟨some v1, some eo⟩, some iv⟩ =
                .ok [("result", v1), ("error", .obj (errMembers eo)), ("id", iv),
                  ("jsonrpc", .str "2.0")] := by
              simp [marshalFields, encodeErrorObject, hvalid]
            refine ⟨.obj [("result", v1), ("error", .obj (errMembers eo)), ("id", iv),
              ("jsonrpc", .str "2.0")], by rw [Message.MarshalJSON, hf]; exact rfl, ?_⟩
            simp only [decodeMessage]
            rw [decodeMembers_cons_ok _ _ _ _ _ (step_result_some emptyMessage v1 hv1)]
            rw [decodeMembers_cons_ok _ _ _ _ _
              (step_error_zero ⟨emptyMessage.request,
                some ⟨some v1, (respState emptyMessage).error⟩,
                emptyMessage.id⟩ rfl (errMembers eo) eo herr)]
            rw [decodeMembers_cons_ok _ _ _ _ _ (step_id_ok _ iv hvalid)]
            rw [decodeMembers_cons_ok _ _ _ _ _ (step_jsonrpc_ok _)]
            rfl

/-- C1 counterexample: the accepted input with jsonrpc 2.0, a null
result and id 1 decodes to a Response with neither result nor error;
encoding that Message succeeds but emits no result/error key (both are
omitempty-nil), so decoding the encoded document fails outright — the
round-trip does not return a structurally equal Message. -/
theorem c1_counterexample :
    decodeMessage (.obj [("jsonrpc", .str "2.0"), ("result", .null), ("id", .num [49])]) =
      .ok ⟨none, some ⟨none, none⟩, some (.num [49])⟩ ∧
    Message.MarshalJSON ⟨none, some ⟨none, none⟩, some (.num [49])⟩ =
      (some (.obj [("id", .num [49]), ("jsonrpc", .str "2.0")]), none) ∧
    (decodeMessage (.obj [("id", .num [49]), ("jsonrpc", .str "2.0")])).isOk = false :=
  ⟨rfl, rfl, rfl⟩

/-- C1 amended: for every accepted input whose decoded Message, when it
carries a Response, has at least one of result/error present, encoding
succeeds with no error and decoding the encoded document yields a
Message structurally equal to the first decode — same request/response
variant, method, params value, result value, error code/message/data,
and id. An accepted Response with neither member (produced only by an
explicit null result/error) does not survive the round-trip. -/
theorem c1_roundtrip (j : Json) (m : Message) (h : decodeMessage j = .ok m)
    (hne : ∀ rp, m.response = some rp → rp.result.isSome ∨ rp.error.isSome) :
    ∃ j2, Message.MarshalJSON m = (some j2, none) ∧ decodeMessage j2 = .ok m :=
  decode_marshal_roundtrip m (decode_wf j m h) (decode_ok_check j m h) hne

/-- C1 witness: the amended theorem applied to the concrete subtract
request, its hypotheses discharged by evaluation. -/
theorem c1_witness :
    decodeMessage c1Input = .ok c1Msg ∧
    (∀ rp, c1Msg.response = some rp → rp.result.isSome ∨ rp.error.isSome) ∧
    ∃ j2, Message.MarshalJSON c1Msg = (some j2, none) ∧
      decodeMessage j2 = .ok c1Msg := by
  have hn : ∀ rp : Response, c1Msg.response = some rp →
      rp.result.isSome = true ∨ rp.error.isSome = true := by
    intro rp h
    rw [show c1Msg.response = none from rfl] at h
    cases h
  exact ⟨rfl, hn, c1_roundtrip c1Input c1Msg rfl hn⟩

end Jsonrpc2
